import Mathlib

/-!
Verification of the FAI-QUANT-SUPERIOR trading script (`trading_system.py`).

The script derives a row of scalar features (gap-open return, SPY return,
VIX return, rolling volume z-score, day of week) from daily OHLCV series and
classifies it with a fixed boolean rule into LONG or FLAT.

The embedding models Python/pandas floats by the type `PFloat`: a finite
value (an exact element of a linearly ordered field standing for the float),
positive infinity, negative infinity, or NaN.  Comparisons involving NaN are
false, as in IEEE semantics used by Python; `pd.isna` is true exactly on NaN
(infinities are not "na").  Division by a zero finite value produces a signed
infinity, and `0 / 0` produces NaN, matching numpy/pandas behaviour with
warnings suppressed (the script calls `warnings.filterwarnings("ignore")`).
-/

set_option autoImplicit false

namespace TradingSystem

/-- A pandas/numpy scalar: finite value, `+inf`, `-inf`, or `NaN`. -/
inductive PFloat (α : Type) where
  | val (x : α)
  | pinf
  | ninf
  | nan
deriving DecidableEq, Repr

namespace PFloat

variable {α β : Type}

/-- The pandas test `pd.isna`: true exactly on NaN; infinities are not "na". -/
def isna : PFloat α → Bool
  | nan => true
  | _ => false

/-- Map a function over the finite value, keeping `inf`/`NaN` as they are. -/
def map (f : α → β) : PFloat α → PFloat β
  | val x => val (f x)
  | pinf => pinf
  | ninf => ninf
  | nan => nan

variable [LinearOrderedField α]

/-- Python `<=` on floats: NaN compares false with everything. -/
def leB : PFloat α → PFloat α → Bool
  | val a, val b => decide (a ≤ b)
  | val _, pinf => true
  | ninf, val _ => true
  | ninf, pinf => true
  | pinf, pinf => true
  | ninf, ninf => true
  | _, _ => false

/-- Python `<` on floats: NaN compares false with everything. -/
def ltB : PFloat α → PFloat α → Bool
  | val a, val b => decide (a < b)
  | val _, pinf => true
  | ninf, val _ => true
  | ninf, pinf => true
  | _, _ => false

/-- Float subtraction with `inf`/`NaN` propagation. -/
def sub : PFloat α → PFloat α → PFloat α
  | val a, val b => val (a - b)
  | val _, pinf => ninf
  | val _, ninf => pinf
  | pinf, val _ => pinf
  | ninf, val _ => ninf
  | pinf, ninf => pinf
  | ninf, pinf => ninf
  | _, _ => nan

/-- Float division: a nonzero finite value divided by zero gives a signed
infinity, `0 / 0` gives NaN, finite over infinite gives `0`, and NaN
propagates — numpy semantics with warnings ignored. -/
def div : PFloat α → PFloat α → PFloat α
  | val a, val b =>
    if b = 0 then (if a = 0 then nan else if 0 < a then pinf else ninf)
    else val (a / b)
  | val _, pinf => val 0
  | val _, ninf => val 0
  | pinf, val b => if 0 ≤ b then pinf else ninf
  | ninf, val b => if 0 ≤ b then ninf else pinf
  | _, _ => nan

/-- The effect of `Series.replace([np.inf, -np.inf], np.nan)` on one scalar. -/
def replaceInf : PFloat α → PFloat α
  | pinf => nan
  | ninf => nan
  | x => x

end PFloat

/-- The allowed trading days, `ALLOWED_DAYS = [0, 1, 2, 3]` (Mon..Thu,
Friday excluded). -/
def ALLOWED_DAYS : List ℕ := [0, 1, 2, 3]

/-- One feature row handed to the signal rule: the fields the rule reads
from the last dataframe record.  `dow` is `df.index.dayofweek`, always an
integer in the dataframe, so it is carried as a bare natural number. -/
structure FeatureRow (α : Type) where
  gap_open : PFloat α
  spy_ret : PFloat α
  vix_ret : PFloat α
  vol_z : PFloat α
  dow : ℕ
deriving DecidableEq, Repr

/-- The signal label set documented by the data model. -/
inductive Signal where
  | LONG
  | SHORT
  | FLAT
deriving DecidableEq, Repr

variable {α : Type} [LinearOrderedField α]

/-- First disjunct of `match_top3`: guarded by `not pd.isna(r.get("spy_ret"))`,
then `(0 <= r["gap_open"] < 0.01) and (0 <= r["spy_ret"] < 0.01)` — a chained
Python comparison, false when `gap_open` is NaN. -/
def cond_spy (r : FeatureRow α) : Bool :=
  if r.spy_ret.isna then false
  else
    (PFloat.leB (PFloat.val 0) r.gap_open && PFloat.ltB r.gap_open (PFloat.val (1/100))) &&
    (PFloat.leB (PFloat.val 0) r.spy_ret && PFloat.ltB r.spy_ret (PFloat.val (1/100)))

/-- Second disjunct of `match_top3`: guarded by `not pd.isna(r.get("vix_ret"))`,
then `-0.10 <= r["vix_ret"] < -0.05`. -/
def cond_vix (r : FeatureRow α) : Bool :=
  if r.vix_ret.isna then false
  else PFloat.leB (PFloat.val (-(1/10))) r.vix_ret && PFloat.ltB r.vix_ret (PFloat.val (-(1/20)))

/-- Third disjunct of `match_top3`: guarded by `not pd.isna(r.get("vol_z"))`,
then `-1.5 <= r["vol_z"] < -0.5`. -/
def cond_volz (r : FeatureRow α) : Bool :=
  if r.vol_z.isna then false
  else PFloat.leB (PFloat.val (-(3/2))) r.vol_z && PFloat.ltB r.vol_z (PFloat.val (-(1/2)))

/-- The rule `match_top3(r)`: `cond` starts false and accumulates the three guarded
disjuncts with `|=`. -/
def match_top3 (r : FeatureRow α) : Bool :=
  cond_spy r || cond_vix r || cond_volz r

/-- The rule `filters(r)`: if `spy_ret` is known and `< -0.005` return False; if
`int(r["dow"])` is not in `ALLOWED_DAYS` return False; else True. -/
def filters (r : FeatureRow α) : Bool :=
  if (if r.spy_ret.isna then false else PFloat.ltB r.spy_ret (PFloat.val (-(1/200)))) then false
  else if r.dow ∈ ALLOWED_DAYS then true
  else false

/-- The emitted label: `"LONG (overnight)" if match_top3(last) and filters(last)
else "FLAT"` (`main`, line 749-750); the per-row backtest signal is the same
boolean (`run_backtest`, line 535). -/
def evalSignal (r : FeatureRow α) : Signal :=
  if match_top3 r && filters r then Signal.LONG else Signal.FLAT

/-- A concrete feature row with every float feature null, on a Tuesday. -/
def rowAllNan : FeatureRow ℚ :=
  ⟨PFloat.nan, PFloat.nan, PFloat.nan, PFloat.nan, 1⟩

/-- A concrete feature row whose VIX disjunct triggers the pattern while the
aux-return exclusion also fires. -/
def rowVixLong : FeatureRow ℚ :=
  ⟨PFloat.nan, PFloat.val (-1/100), PFloat.val (-7/100), PFloat.nan, 1⟩

/-- A concrete feature row whose aux return is negative infinity — non-null
and below every threshold. -/
def rowSpyNinf : FeatureRow ℚ :=
  ⟨PFloat.nan, PFloat.ninf, PFloat.val (-7/100), PFloat.nan, 1⟩

/-- The pattern disjunction as the specification words it: small positive gap
with small positive aux return, or a large negative secondary aux return, or a
low volume z-score band.  A band such as `0 ≤ x < 1/100` can only be met by a
finite value, so each disjunct carries an explicit finite witness. -/
def specPattern (r : FeatureRow α) : Prop :=
  (∃ g s, r.gap_open = PFloat.val g ∧ r.spy_ret = PFloat.val s ∧
     0 ≤ g ∧ g < 1/100 ∧ 0 ≤ s ∧ s < 1/100) ∨
  (∃ v, r.vix_ret = PFloat.val v ∧ -(1/10) ≤ v ∧ v < -(1/20)) ∨
  (∃ z, r.vol_z = PFloat.val z ∧ -(3/2) ≤ z ∧ z < -(1/2))

/-- The exclusion filters as the specification words them: the aux return is
known (not NaN) and below `-0.005`, or the day of week is outside the allowed
set.  A known value below the threshold is either a finite value below it or
negative infinity. -/
def specExcluded (r : FeatureRow α) : Prop :=
  (∃ s, r.spy_ret = PFloat.val s ∧ s < -(1/200)) ∨
  r.spy_ret = PFloat.ninf ∨
  r.dow ∉ ALLOWED_DAYS

/-- One daily OHLCV bar of the primary instrument, after `load_ftsemib_daily`
has normalised and `dropna`-ed the frame: every field is present.  `date` is a
calendar-day number counted from a Monday, so the pandas `index.dayofweek` of
the bar is `date % 7`. -/
structure Bar where
  date : ℕ
  Open : ℚ
  High : ℚ
  Low : ℚ
  Close : ℚ
  Volume : ℚ
deriving DecidableEq, Repr

/-- The `Open` entry of row `t` (NaN past the end of the frame). -/
def Open_at (bars : List Bar) (t : ℕ) : PFloat ℚ :=
  match bars.get? t with
  | none => PFloat.nan
  | some b => PFloat.val b.Open

/-- The column `Close_prev = df["Close"].shift(1)`: NaN on the first row, else the
previous row's close. -/
def Close_prev (bars : List Bar) (t : ℕ) : PFloat ℚ :=
  if t = 0 then PFloat.nan
  else
    match bars.get? (t - 1) with
    | none => PFloat.nan
    | some b => PFloat.val b.Close

/-- The column `df["gap_open"] = df["Open"] / df["Close_prev"] - 1` (line 433).  Note the
script applies no `replace([inf, -inf], nan)` to this column. -/
def gap_open (bars : List Bar) (t : ℕ) : PFloat ℚ :=
  PFloat.sub (PFloat.div (Open_at bars t) (Close_prev bars t)) (PFloat.val 1)

/-- The last non-null value of a series prefix (the value `ffill` carries). -/
def lastValid (xs : List (Option ℚ)) : Option ℚ :=
  xs.foldl (fun acc x => match x with | none => acc | some q => some q) none

/-- The forward-filled (padded) value of the series at position `i`. -/
def padAt (xs : List (Option ℚ)) (i : ℕ) : Option ℚ :=
  lastValid (xs.take (i + 1))

/-- View a nullable rational as a pandas scalar. -/
def toPF (x : Option ℚ) : PFloat ℚ :=
  match x with
  | none => PFloat.nan
  | some q => PFloat.val q

/-- The pandas `Series.pct_change()` at position `i` (lines 435-436).  The pandas default
`fill_method="pad"` forward-fills the series before computing
`x[i] / x[i-1] - 1`; the script suppresses the deprecation warning it
triggers on recent pandas. -/
def pct_change (xs : List (Option ℚ)) (i : ℕ) : PFloat ℚ :=
  if i = 0 then PFloat.nan
  else PFloat.sub (PFloat.div (toPF (padAt xs i)) (toPF (padAt xs (i - 1)))) (PFloat.val 1)

/-- The join `df.join(aux)` (lines 347, 352): left join of the auxiliary closes onto
the primary calendar dates — alignment is by date, a date absent from the
auxiliary series contributes null. -/
def alignAux (dates : List ℕ) (aux : ℕ → Option ℚ) : List (Option ℚ) :=
  dates.map aux

/-- The auxiliary return column at row `i`: `pct_change` of the joined
auxiliary close series. -/
def spy_ret_at (dates : List ℕ) (aux : ℕ → Option ℚ) (i : ℕ) : PFloat ℚ :=
  pct_change (alignAux dates aux) i

/-- Arithmetic mean of a window (pandas `rolling(20).mean()` body). -/
def mean (l : List ℚ) : ℚ :=
  l.sum / l.length

/-- Population variance of a window: the square of `rolling(20).std(ddof=0)`. -/
def variancePop (l : List ℚ) : ℚ :=
  (l.map (fun x => (x - mean l) ^ 2)).sum / l.length

/-- The trailing window of up to `n` observations ending at row `t`. -/
def rollingWindow (xs : List ℚ) (n t : ℕ) : List ℚ :=
  (xs.take (t + 1)).drop (t + 1 - n)

/-- The series `df["Volume_for_z"].rolling(20).mean()` at row `t`: NaN until 20
observations are available (pandas default `min_periods` equals the window). -/
noncomputable def vol_ma (vols : List ℚ) (t : ℕ) : PFloat ℝ :=
  if 20 ≤ t + 1 ∧ t < vols.length then
    PFloat.val ((mean (rollingWindow vols 20 t) : ℚ) : ℝ)
  else PFloat.nan

/-- The series `df["Volume_for_z"].rolling(20).std(ddof=0)` at row `t`. -/
noncomputable def vol_std (vols : List ℚ) (t : ℕ) : PFloat ℝ :=
  if 20 ≤ t + 1 ∧ t < vols.length then
    PFloat.val (Real.sqrt ((variancePop (rollingWindow vols 20 t) : ℚ) : ℝ))
  else PFloat.nan

/-- The `Volume_for_z` entry of row `t` as a pandas scalar. -/
def Volume_at (vols : List ℚ) (t : ℕ) : PFloat ℝ :=
  match vols.get? t with
  | none => PFloat.nan
  | some q => PFloat.val (q : ℝ)

/-- Lines 472-475: `vol_z = (Volume_for_z - vol_ma) / vol_std` followed by
`replace([np.inf, -np.inf], np.nan)`. -/
noncomputable def vol_z (vols : List ℚ) (t : ℕ) : PFloat ℝ :=
  PFloat.replaceInf
    (PFloat.div (PFloat.sub (Volume_at vols t) (vol_ma vols t)) (vol_std vols t))

/-- Lines 278-282: the daily download of the primary instrument; an empty
result raises (`RuntimeError`, the DataGapError of the design) before any
feature is computed. -/
def load_ftsemib_daily (raw : List Bar) : Except String (List Bar) :=
  if raw.isEmpty then
    Except.error "Errore: nessun dato FTSEMIB da Yahoo (daily)."
  else Except.ok raw

/-- The feature row of the dataframe at row `t`: gap-open return, joined aux
returns, rolling volume z-score and day of week, as `build_dataset_run_latest`
computes them on the daily path. -/
noncomputable def featuresAt (bars : List Bar) (spy vix : ℕ → Option ℚ) (t : ℕ) :
    FeatureRow ℝ :=
  { gap_open := PFloat.map (fun q : ℚ => (q : ℝ)) (gap_open bars t)
    spy_ret := PFloat.map (fun q : ℚ => (q : ℝ)) (pct_change (alignAux (bars.map Bar.date) spy) t)
    vix_ret := PFloat.map (fun q : ℚ => (q : ℝ)) (pct_change (alignAux (bars.map Bar.date) vix) t)
    vol_z := vol_z (bars.map Bar.Volume) t
    dow := ((bars.get? t).map Bar.date).getD 0 % 7 }

/-- One run of `main` up to the computed signal: load the primary series (a
data gap is fatal here), build the features of the last row, and classify it.
The signal of a failed run is an `Except.error`, never a label. -/
noncomputable def run_latest (raw : List Bar) (spy vix : ℕ → Option ℚ) :
    Except String Signal := do
  let bars ← load_ftsemib_daily raw
  pure (evalSignal (featuresAt bars spy vix (bars.length - 1)))

/-- Two bars whose first close is zero: input for the `gap_open` infinity
counterexample. -/
def barsZeroClose : List Bar :=
  [⟨0, 5, 5, 5, 0, 1000⟩, ⟨1, 1, 2, 1, 2, 1000⟩]

/-- Two ordinary bars, for witnesses of the amended `gap_open` claim. -/
def barsTwoDays : List Bar :=
  [⟨0, 10, 11, 9, 10, 100⟩, ⟨1, 11, 12, 10, 11, 100⟩]

/-- A bar sequence agreeing with `barsLookB` up to index 1. -/
def barsLookA : List Bar :=
  [⟨0, 10, 11, 9, 10, 100⟩, ⟨1, 11, 12, 10, 11, 100⟩]

/-- Extends `barsLookA` with a later bar: the extension must not change
`gap_open` at index 1. -/
def barsLookB : List Bar :=
  [⟨0, 10, 11, 9, 10, 100⟩, ⟨1, 11, 12, 10, 11, 100⟩, ⟨2, 99, 100, 98, 99, 500⟩]

/-- An auxiliary close series with data on days 0 and 2 and a gap on day 1. -/
def auxGapDates : ℕ → Option ℚ :=
  fun d => if d = 0 then some 100 else if d = 2 then some 110 else none

/-- Twenty volume observations with nonzero variance. -/
def vols20 : List ℚ :=
  List.replicate 19 1 ++ [21]

lemma cond_spy_eq_true_iff (r : FeatureRow α) :
    cond_spy r = true ↔
      ∃ g s, r.gap_open = PFloat.val g ∧ r.spy_ret = PFloat.val s ∧
        0 ≤ g ∧ g < 1/100 ∧ 0 ≤ s ∧ s < 1/100 := by
  obtain ⟨g, s, v, z, d⟩ := r
  cases g <;> cases s <;>
    simp [cond_spy, PFloat.isna, PFloat.leB, PFloat.ltB, and_assoc]

lemma cond_vix_eq_true_iff (r : FeatureRow α) :
    cond_vix r = true ↔
      ∃ v, r.vix_ret = PFloat.val v ∧ -(1/10) ≤ v ∧ v < -(1/20) := by
  obtain ⟨g, s, v, z, d⟩ := r
  cases v <;> simp [cond_vix, PFloat.isna, PFloat.leB, PFloat.ltB]

lemma cond_volz_eq_true_iff (r : FeatureRow α) :
    cond_volz r = true ↔
      ∃ z, r.vol_z = PFloat.val z ∧ -(3/2) ≤ z ∧ z < -(1/2) := by
  obtain ⟨g, s, v, z, d⟩ := r
  cases z <;> simp [cond_volz, PFloat.isna, PFloat.leB, PFloat.ltB]

lemma match_top3_eq_true_iff (r : FeatureRow α) :
    match_top3 r = true ↔ specPattern r := by
  simp [match_top3, specPattern, cond_spy_eq_true_iff, cond_vix_eq_true_iff,
    cond_volz_eq_true_iff, or_assoc]

lemma filters_eq_true_iff (r : FeatureRow α) :
    filters r = true ↔ ¬ specExcluded r := by
  obtain ⟨g, s, v, z, d⟩ := r
  cases s with
  | val x =>
    by_cases hx : x < -(1/200) <;> by_cases hd : d ∈ ALLOWED_DAYS <;>
      simp [filters, specExcluded, PFloat.isna, PFloat.ltB, hx, hd]
  | pinf =>
    by_cases hd : d ∈ ALLOWED_DAYS <;>
      simp [filters, specExcluded, PFloat.isna, PFloat.ltB, hd]
  | ninf =>
    by_cases hd : d ∈ ALLOWED_DAYS <;>
      simp [filters, specExcluded, PFloat.isna, PFloat.ltB, hd]
  | nan =>
    by_cases hd : d ∈ ALLOWED_DAYS <;>
      simp [filters, specExcluded, PFloat.isna, hd]

/-- C1: the Signal Evaluator returns LONG exactly when the pattern disjunction
holds — (0 ≤ gap_open < 0.01 and 0 ≤ aux_return < 0.01) or
(−0.10 ≤ secondary_aux_return < −0.05) or (−1.5 ≤ volume_zscore < −0.5), each
disjunct only satisfiable with non-null features — and no exclusion filter
fires (aux_return known and below −0.005, or day_of_week outside {0,1,2,3}). -/
theorem evalSignal_long_iff (r : FeatureRow α) :
    evalSignal r = Signal.LONG ↔ specPattern r ∧ ¬ specExcluded r := by
  have hm := match_top3_eq_true_iff r
  have hf := filters_eq_true_iff r
  unfold evalSignal
  by_cases h : (match_top3 r && filters r) = true
  · rw [if_pos h]
    rw [Bool.and_eq_true] at h
    simp only [true_iff]
    exact ⟨hm.mp h.1, hf.mp h.2⟩
  · rw [if_neg h]
    rw [Bool.and_eq_true] at h
    constructor
    · intro hFL; exact Signal.noConfusion hFL
    · rintro ⟨hp, he⟩; exact absurd ⟨hm.mpr hp, hf.mpr he⟩ h

/-- C2: a sub-condition whose referenced feature is null never satisfies the
disjunction — nulling `gap_open` or `aux_return` falsifies the first disjunct,
nulling `secondary_aux_return` the second, nulling `volume_zscore` the third —
and the evaluator is total: it always returns one of the labels LONG or FLAT,
never an error. -/
theorem null_features_skipped (r : FeatureRow α) :
    cond_spy { r with gap_open := PFloat.nan } = false ∧
    cond_spy { r with spy_ret := PFloat.nan } = false ∧
    cond_vix { r with vix_ret := PFloat.nan } = false ∧
    cond_volz { r with vol_z := PFloat.nan } = false ∧
    (evalSignal r = Signal.LONG ∨ evalSignal r = Signal.FLAT) := by
  obtain ⟨g, s, v, z, d⟩ := r
  refine ⟨?_, ?_, ?_, ?_, ?_⟩
  · cases s <;> simp [cond_spy, PFloat.isna, PFloat.leB]
  · simp [cond_spy, PFloat.isna]
  · simp [cond_vix, PFloat.isna]
  · simp [cond_volz, PFloat.isna]
  · unfold evalSignal; split <;> simp

/-- Closed instance of `null_features_skipped` at a concrete feature row. -/
theorem null_features_skipped_witness :
    cond_spy { rowAllNan with gap_open := PFloat.nan } = false ∧
    cond_spy { rowAllNan with spy_ret := PFloat.nan } = false ∧
    cond_vix { rowAllNan with vix_ret := PFloat.nan } = false ∧
    cond_volz { rowAllNan with vol_z := PFloat.nan } = false ∧
    (evalSignal rowAllNan = Signal.LONG ∨ evalSignal rowAllNan = Signal.FLAT) :=
  null_features_skipped rowAllNan

/-- C3: if the day of week is outside `ALLOWED_DAYS`, the signal is FLAT
regardless of every other field. -/
theorem dow_excluded_flat (r : FeatureRow α) (h : r.dow ∉ ALLOWED_DAYS) :
    evalSignal r = Signal.FLAT := by
  have hf : filters r = false := by
    rw [← Bool.not_eq_true, filters_eq_true_iff]
    intro hc
    exact hc (Or.inr (Or.inr h))
  simp [evalSignal, hf]

/-- Closed instance of `dow_excluded_flat`: Friday (`dow = 4`) forces FLAT on
a row whose other features would trigger the pattern. -/
theorem dow_excluded_flat_witness :
    evalSignal (⟨PFloat.val (4/1000), PFloat.val (3/1000), PFloat.nan,
      PFloat.val 0, 4⟩ : FeatureRow ℚ) = Signal.FLAT :=
  dow_excluded_flat _ (by decide)

/-- C4: if `aux_return` is non-null and strictly below `-0.005` — a finite
value below the threshold or negative infinity — the signal is FLAT even when
the pattern disjunction holds. -/
theorem spy_exclusion_flat (r : FeatureRow α)
    (h : (∃ s, r.spy_ret = PFloat.val s ∧ s < -(1/200)) ∨ r.spy_ret = PFloat.ninf) :
    evalSignal r = Signal.FLAT := by
  have hf : filters r = false := by
    rw [← Bool.not_eq_true, filters_eq_true_iff]
    intro hc
    rcases h with he | hn
    · exact hc (Or.inl he)
    · exact hc (Or.inr (Or.inl hn))
  simp [evalSignal, hf]

/-- Closed instance of `spy_exclusion_flat`: two rows whose VIX disjunct holds
(so `match_top3` is true) are still classified FLAT, one with the finite
`spy_ret = -0.01` below the `-0.005` exclusion threshold and one with
`spy_ret` negative infinity. -/
theorem spy_exclusion_flat_witness :
    match_top3 rowVixLong = true ∧ evalSignal rowVixLong = Signal.FLAT ∧
    match_top3 rowSpyNinf = true ∧ evalSignal rowSpyNinf = Signal.FLAT :=
  ⟨by norm_num [rowVixLong, match_top3, cond_spy, cond_vix, cond_volz,
      PFloat.isna, PFloat.leB, PFloat.ltB],
   spy_exclusion_flat rowVixLong (Or.inl ⟨-1/100, rfl, by norm_num⟩),
   by norm_num [rowSpyNinf, match_top3, cond_spy, cond_vix, cond_volz,
      PFloat.isna, PFloat.leB, PFloat.ltB],
   spy_exclusion_flat rowSpyNinf (Or.inr rfl)⟩

/-- C10: the program only ever emits LONG or FLAT; the SHORT label of the
documented label set is never produced. -/
theorem emitted_signal_long_or_flat (r : FeatureRow α) :
    evalSignal r ≠ Signal.SHORT ∧
    (evalSignal r = Signal.LONG ∨ evalSignal r = Signal.FLAT) := by
  unfold evalSignal; split <;> simp

/-- Closed instance of `emitted_signal_long_or_flat` at a concrete row. -/
theorem emitted_signal_long_or_flat_witness :
    evalSignal rowAllNan ≠ Signal.SHORT ∧
    (evalSignal rowAllNan = Signal.LONG ∨ evalSignal rowAllNan = Signal.FLAT) :=
  emitted_signal_long_or_flat rowAllNan

/-- C6 counterexample: with a zero previous close and a positive open,
`gap_open` is positive infinity — a non-null value — because the script never
replaces infinities in this column.  The claim that a zero previous close
yields null is false on the code. -/
theorem gap_open_zero_prev_close_cex :
    gap_open barsZeroClose 1 = PFloat.pinf ∧
    PFloat.isna (gap_open barsZeroClose 1) = false := by
  constructor <;>
    norm_num [gap_open, Open_at, Close_prev, barsZeroClose, PFloat.div, PFloat.sub,
      PFloat.isna]

/-- C6 amended: `gap_open(t)` is `open(t)/close(t-1) - 1` when the previous
close exists and is nonzero; it is null on the first row (no previous close);
but a zero previous close gives a signed infinity when the open is nonzero
(NaN only when the open is zero too), not null. -/
theorem gap_open_amended (bars : List Bar) (t : ℕ) :
    (t = 0 → gap_open bars t = PFloat.nan) ∧
    (∀ b bp, 0 < t → bars.get? t = some b → bars.get? (t - 1) = some bp →
      ((bp.Close ≠ 0 → gap_open bars t = PFloat.val (b.Open / bp.Close - 1)) ∧
       (bp.Close = 0 → b.Open = 0 → gap_open bars t = PFloat.nan) ∧
       (bp.Close = 0 → 0 < b.Open → gap_open bars t = PFloat.pinf) ∧
       (bp.Close = 0 → b.Open < 0 → gap_open bars t = PFloat.ninf))) := by
  constructor
  · intro h0
    subst h0
    unfold gap_open Open_at Close_prev
    cases bars.get? 0 <;> rfl
  · intro b bp hpos hb hbp
    have ht0 : t ≠ 0 := Nat.pos_iff_ne_zero.mp hpos
    rw [List.get?_eq_getElem?] at hb hbp
    refine ⟨?_, ?_, ?_, ?_⟩
    · intro hc
      simp [gap_open, Open_at, Close_prev, hb, hbp, ht0, PFloat.div, PFloat.sub, hc]
    · intro hc ho
      simp [gap_open, Open_at, Close_prev, hb, hbp, ht0, PFloat.div, PFloat.sub, hc, ho]
    · intro hc ho
      simp [gap_open, Open_at, Close_prev, hb, hbp, ht0, PFloat.div, PFloat.sub, hc,
        ho, ho.ne']
    · intro hc ho
      simp [gap_open, Open_at, Close_prev, hb, hbp, ht0, PFloat.div, PFloat.sub, hc,
        ho.ne, not_lt.mpr ho.le]

/-- Closed instance of `gap_open_amended`: an ordinary second bar produces the
finite gap-open return `11/10 - 1`. -/
theorem gap_open_amended_witness :
    gap_open barsTwoDays 1 = PFloat.val ((11 : ℚ) / 10 - 1) :=
  (((gap_open_amended barsTwoDays 1).2 ⟨1, 11, 12, 10, 11, 100⟩ ⟨0, 10, 11, 9, 10, 100⟩
    (by norm_num) rfl rfl).1) (by norm_num)

/-- C8: `gap_open` at row `t` reads only rows `t` and `t-1`; two bar sequences
that agree on every row up to and including `t` yield the same value
(no-look-ahead). -/
theorem gap_open_no_lookahead (bars1 bars2 : List Bar) (t : ℕ)
    (h : ∀ i, i ≤ t → bars1.get? i = bars2.get? i) :
    gap_open bars1 t = gap_open bars2 t := by
  unfold gap_open Open_at Close_prev
  rw [h t le_rfl]
  by_cases ht : t = 0
  · simp [ht]
  · rw [if_neg ht, if_neg ht, h (t - 1) (Nat.sub_le t 1)]

/-- Closed instance of `gap_open_no_lookahead`: appending a third bar does not
change `gap_open` at row 1. -/
theorem gap_open_no_lookahead_witness :
    gap_open barsLookA 1 = gap_open barsLookB 1 :=
  gap_open_no_lookahead barsLookA barsLookB 1 (by
    intro i hi
    interval_cases i <;> rfl)

lemma padAt_succ_none {xs : List (Option ℚ)} {i : ℕ} (h : xs.get? i = some none) :
    padAt xs i = lastValid (xs.take i) := by
  unfold padAt
  rw [List.get?_eq_getElem?] at h
  rw [List.take_succ, h]
  simp [lastValid, List.foldl_append]

/-- C7 counterexample: with auxiliary closes 100, missing, 110 on consecutive
dates, the pandas pad fill makes the missing date's return `0.0` — a non-null
value — and the following date's return `110/100 - 1` is computed against the
close carried forward from two days earlier.  The claim that a missing date
yields null for that date is false on the code. -/
theorem aux_missing_pad_cex :
    spy_ret_at [0, 1, 2] auxGapDates 1 = PFloat.val 0 ∧
    PFloat.isna (spy_ret_at [0, 1, 2] auxGapDates 1) = false ∧
    spy_ret_at [0, 1, 2] auxGapDates 2 = PFloat.val (1/10) := by
  refine ⟨?_, ?_, ?_⟩ <;>
    norm_num [spy_ret_at, pct_change, alignAux, auxGapDates, padAt, lastValid, toPF,
      PFloat.div, PFloat.sub, PFloat.isna, List.take]

/-- C7 amended: `aux_return` is `pct_change` of the date-aligned, forward
filled auxiliary closes: it is null on the first row and while no valid close
has been seen; row `i` gets `padded(i)/padded(i-1) - 1` when the carried
forward previous close is nonzero — in particular a date whose auxiliary
datum is missing but that has an earlier valid nonzero close gets the value
`0`, not null; and when the carried-forward previous close is zero the result
is null (`0/0`) when the current padded close is also zero — including a
missing date whose carried-forward close is zero — and a non-null signed
infinity otherwise. -/
theorem aux_return_amended (dates : List ℕ) (aux : ℕ → Option ℚ) (i : ℕ) :
    (i = 0 → spy_ret_at dates aux i = PFloat.nan) ∧
    (0 < i → padAt (alignAux dates aux) (i - 1) = none →
      spy_ret_at dates aux i = PFloat.nan) ∧
    (0 < i → ∀ p c, padAt (alignAux dates aux) (i - 1) = some p →
      padAt (alignAux dates aux) i = some c → p ≠ 0 →
      spy_ret_at dates aux i = PFloat.val (c / p - 1)) ∧
    (0 < i → (alignAux dates aux).get? i = some none →
      ∀ p, padAt (alignAux dates aux) (i - 1) = some p → p ≠ 0 →
      spy_ret_at dates aux i = PFloat.val 0) ∧
    (0 < i → (alignAux dates aux).get? i = some none →
      padAt (alignAux dates aux) (i - 1) = some 0 →
      spy_ret_at dates aux i = PFloat.nan) ∧
    (0 < i → ∀ c, padAt (alignAux dates aux) (i - 1) = some 0 →
      padAt (alignAux dates aux) i = some c →
      ((c = 0 → spy_ret_at dates aux i = PFloat.nan) ∧
       (0 < c → spy_ret_at dates aux i = PFloat.pinf) ∧
       (c < 0 → spy_ret_at dates aux i = PFloat.ninf))) := by
  refine ⟨?_, ?_, ?_, ?_, ?_, ?_⟩
  · intro h0
    simp [spy_ret_at, pct_change, h0]
  · intro hi hp
    cases hq : padAt (alignAux dates aux) i <;>
      simp [spy_ret_at, pct_change, Nat.pos_iff_ne_zero.mp hi, hp, hq, toPF,
        PFloat.div, PFloat.sub]
  · intro hi p c hp hc hpne
    simp [spy_ret_at, pct_change, Nat.pos_iff_ne_zero.mp hi, hp, hc, toPF,
      PFloat.div, PFloat.sub, hpne]
  · intro hi hnone p hp hpne
    have hstep : (i - 1) + 1 = i := by omega
    have hpi : padAt (alignAux dates aux) i = some p := by
      rw [padAt_succ_none hnone]
      unfold padAt at hp
      rw [hstep] at hp
      exact hp
    simp [spy_ret_at, pct_change, Nat.pos_iff_ne_zero.mp hi, hp, hpi, toPF,
      PFloat.div, PFloat.sub, hpne, div_self]
  · intro hi hnone hp0
    have hstep : (i - 1) + 1 = i := by omega
    have hpi : padAt (alignAux dates aux) i = some 0 := by
      rw [padAt_succ_none hnone]
      unfold padAt at hp0
      rw [hstep] at hp0
      exact hp0
    simp [spy_ret_at, pct_change, Nat.pos_iff_ne_zero.mp hi, hp0, hpi, toPF,
      PFloat.div, PFloat.sub]
  · intro hi c hp0 hc
    refine ⟨?_, ?_, ?_⟩
    · intro hcc
      simp [spy_ret_at, pct_change, Nat.pos_iff_ne_zero.mp hi, hp0, hc, hcc, toPF,
        PFloat.div, PFloat.sub]
    · intro hcc
      simp [spy_ret_at, pct_change, Nat.pos_iff_ne_zero.mp hi, hp0, hc, toPF,
        PFloat.div, PFloat.sub, hcc, hcc.ne']
    · intro hcc
      simp [spy_ret_at, pct_change, Nat.pos_iff_ne_zero.mp hi, hp0, hc, toPF,
        PFloat.div, PFloat.sub, hcc.ne, not_lt.mpr hcc.le]

/-- Closed instance of `aux_return_amended`: on the gap date the computed
auxiliary return is the non-null value zero. -/
theorem aux_return_amended_witness :
    spy_ret_at [0, 1, 2] auxGapDates 1 = PFloat.val 0 :=
  ((aux_return_amended [0, 1, 2] auxGapDates 1).2.2.2.1) (by norm_num) rfl 100 rfl
    (by norm_num)

lemma sum_eq_zero_of_nonneg {l : List ℚ} (h0 : ∀ x ∈ l, 0 ≤ x) (hs : l.sum = 0) :
    ∀ x ∈ l, x = 0 := by
  induction l with
  | nil => intro x hx; cases hx
  | cons a l ih =>
    have ha : 0 ≤ a := h0 a (List.mem_cons_self a l)
    have hl : 0 ≤ l.sum := List.sum_nonneg fun x hx => h0 x (List.mem_cons_of_mem a hx)
    rw [List.sum_cons] at hs
    have ha0 : a = 0 := by linarith
    have hl0 : l.sum = 0 := by linarith
    intro x hx
    rcases List.mem_cons.mp hx with h | h
    · exact h.trans ha0
    · exact ih (fun y hy => h0 y (List.mem_cons_of_mem a hy)) hl0 x h

lemma variancePop_nonneg (l : List ℚ) : 0 ≤ variancePop l := by
  unfold variancePop
  apply div_nonneg
  · apply List.sum_nonneg
    intro x hx
    obtain ⟨y, hy, rfl⟩ := List.mem_map.mp hx
    positivity
  · exact Nat.cast_nonneg l.length

lemma eq_mean_of_variancePop_eq_zero {l : List ℚ} (hl : l ≠ []) (hv : variancePop l = 0)
    {x : ℚ} (hx : x ∈ l) : x = mean l := by
  have hlen : ((l.length : ℚ)) ≠ 0 := by
    have : 0 < l.length := List.length_pos.mpr hl
    exact_mod_cast Nat.pos_iff_ne_zero.mp this
  unfold variancePop at hv
  rw [div_eq_zero_iff] at hv
  have hs : (l.map fun y => (y - mean l) ^ 2).sum = 0 := by tauto
  have h2 : (x - mean l) ^ 2 = 0 :=
    sum_eq_zero_of_nonneg
      (fun y hy => by obtain ⟨z, hz, rfl⟩ := List.mem_map.mp hy; positivity) hs
      _ (List.mem_map_of_mem _ hx)
  have h3 : x - mean l = 0 :=
    pow_eq_zero_iff (by norm_num : (2 : ℕ) ≠ 0) |>.mp h2
  linarith

lemma rollingWindow_length {xs : List ℚ} {n t : ℕ} (h1 : t < xs.length)
    (h2 : n ≤ t + 1) : (rollingWindow xs n t).length = n := by
  unfold rollingWindow
  rw [List.length_drop, List.length_take]
  omega

lemma getD_mem_rollingWindow {xs : List ℚ} {n t : ℕ} (h1 : t < xs.length)
    (h3 : 0 < n) : xs.getD t 0 ∈ rollingWindow xs n t := by
  unfold rollingWindow
  have hts : xs.take (t + 1) = xs.take t ++ [xs.getD t 0] := by
    rw [List.take_succ]
    congr 1
    rw [List.getElem?_eq_getElem h1]
    simp [List.getD_eq_getElem?_getD, List.getElem?_eq_getElem h1]
  rw [hts, List.drop_append_eq_append_drop]
  refine List.mem_append_right _ ?_
  have hk : t + 1 - n - (xs.take t).length = 0 := by
    rw [List.length_take]
    omega
  rw [hk]
  exact List.mem_singleton_self _

/-- C5: the volume z-score at row `t` is null when fewer than 20 trailing
observations exist or when the 20-observation window has zero variance (zero
standard deviation); otherwise it equals
`(volume(t) - mean(window)) / std(window)` with the population (ddof=0)
standard deviation. -/
theorem vol_z_spec (vols : List ℚ) (t : ℕ) (ht : t < vols.length) :
    (t + 1 < 20 → vol_z vols t = PFloat.nan) ∧
    (20 ≤ t + 1 → variancePop (rollingWindow vols 20 t) = 0 →
      vol_z vols t = PFloat.nan) ∧
    (20 ≤ t + 1 → variancePop (rollingWindow vols 20 t) ≠ 0 →
      vol_z vols t = PFloat.val
        ((((vols.getD t 0 : ℚ) : ℝ) - ((mean (rollingWindow vols 20 t) : ℚ) : ℝ)) /
          Real.sqrt ((variancePop (rollingWindow vols 20 t) : ℚ) : ℝ))) := by
  have hsome : vols.get? t = some (vols.getD t 0) := by
    rw [List.get?_eq_getElem?, List.getElem?_eq_getElem ht]
    simp [List.getD_eq_getElem?_getD, List.getElem?_eq_getElem ht]
  have hvol : Volume_at vols t = PFloat.val ((vols.getD t 0 : ℚ) : ℝ) := by
    unfold Volume_at
    rw [hsome]
  refine ⟨?_, ?_, ?_⟩
  · intro hlt
    have hcond : ¬ (20 ≤ t + 1 ∧ t < vols.length) := by omega
    have hma : vol_ma vols t = PFloat.nan := by
      unfold vol_ma
      rw [if_neg hcond]
    have hstd : vol_std vols t = PFloat.nan := by
      unfold vol_std
      rw [if_neg hcond]
    unfold vol_z
    rw [hvol, hma, hstd]
    rfl
  · intro hge hv
    have hcond : 20 ≤ t + 1 ∧ t < vols.length := ⟨hge, ht⟩
    have hwlen : (rollingWindow vols 20 t).length = 20 := rollingWindow_length ht hge
    have hwne : rollingWindow vols 20 t ≠ [] := by
      intro hnil
      rw [hnil] at hwlen
      cases hwlen
    have hmem : vols.getD t 0 ∈ rollingWindow vols 20 t :=
      getD_mem_rollingWindow ht (by norm_num)
    have hxm : vols.getD t 0 = mean (rollingWindow vols 20 t) :=
      eq_mean_of_variancePop_eq_zero hwne hv hmem
    have hma : vol_ma vols t =
        PFloat.val ((mean (rollingWindow vols 20 t) : ℚ) : ℝ) := by
      unfold vol_ma
      rw [if_pos hcond]
    have hstd : vol_std vols t = PFloat.val 0 := by
      unfold vol_std
      rw [if_pos hcond, hv]
      norm_num
    unfold vol_z
    rw [hvol, hma, hstd, hxm]
    simp [PFloat.sub, PFloat.div, PFloat.replaceInf]
  · intro hge hv
    have hcond : 20 ≤ t + 1 ∧ t < vols.length := ⟨hge, ht⟩
    have hpos : 0 < variancePop (rollingWindow vols 20 t) :=
      lt_of_le_of_ne (variancePop_nonneg _) (Ne.symm hv)
    have hsq : Real.sqrt ((variancePop (rollingWindow vols 20 t) : ℚ) : ℝ) ≠ 0 := by
      have hcast : (0 : ℝ) < ((variancePop (rollingWindow vols 20 t) : ℚ) : ℝ) := by
        exact_mod_cast hpos
      exact ne_of_gt (Real.sqrt_pos.mpr hcast)
    have hma : vol_ma vols t =
        PFloat.val ((mean (rollingWindow vols 20 t) : ℚ) : ℝ) := by
      unfold vol_ma
      rw [if_pos hcond]
    have hstd : vol_std vols t =
        PFloat.val (Real.sqrt ((variancePop (rollingWindow vols 20 t) : ℚ) : ℝ)) := by
      unfold vol_std
      rw [if_pos hcond]
    unfold vol_z
    rw [hvol, hma, hstd]
    simp only [PFloat.sub, PFloat.div]
    rw [if_neg hsq]
    rfl

/-- Closed instance of `vol_z_spec` at twenty concrete observations. -/
theorem vol_z_spec_witness :
    (19 + 1 < 20 → vol_z vols20 19 = PFloat.nan) ∧
    (20 ≤ 19 + 1 → variancePop (rollingWindow vols20 20 19) = 0 →
      vol_z vols20 19 = PFloat.nan) ∧
    (20 ≤ 19 + 1 → variancePop (rollingWindow vols20 20 19) ≠ 0 →
      vol_z vols20 19 = PFloat.val
        ((((vols20.getD 19 0 : ℚ) : ℝ) - ((mean (rollingWindow vols20 20 19) : ℚ) : ℝ)) /
          Real.sqrt ((variancePop (rollingWindow vols20 20 19) : ℚ) : ℝ))) :=
  vol_z_spec vols20 19 (by norm_num [vols20])

/-- C9: an empty primary series makes the run fail with the data-gap error
before any feature is computed; the error is surfaced to the caller and no
signal — not even a partial one — is emitted. -/
theorem empty_primary_fatal (spy vix : ℕ → Option ℚ) :
    run_latest [] spy vix =
      Except.error "Errore: nessun dato FTSEMIB da Yahoo (daily)." ∧
    ∀ s : Signal, run_latest [] spy vix ≠ Except.ok s := by
  have h1 : run_latest [] spy vix =
      Except.error "Errore: nessun dato FTSEMIB da Yahoo (daily)." := rfl
  refine ⟨h1, ?_⟩
  intro s hs
  rw [h1] at hs
  exact Except.noConfusion hs

/-- Closed instance of `empty_primary_fatal` with no auxiliary data either. -/
theorem empty_primary_fatal_witness :
    run_latest [] (fun _ => none) (fun _ => none) =
      Except.error "Errore: nessun dato FTSEMIB da Yahoo (daily)." ∧
    run_latest [] (fun _ => none) (fun _ => none) ≠ Except.ok Signal.FLAT :=
  ⟨(empty_primary_fatal (fun _ => none) (fun _ => none)).1,
   (empty_primary_fatal (fun _ => none) (fun _ => none)).2 Signal.FLAT⟩

end TradingSystem
